import Mathlib

/-!
Verification of the chat intent-matching engine of the backHackaton
services-marketplace backend.

The engine lives in:
  * `src/utils/textMatcher.js`   — `hasKeywords`, `calculateRelevance`, `normalizeText`,
    `removeStopWords`;
  * `src/config/aiChatConfig.js` — weights, thresholds, phrase lists, stop words;
  * `src/models/ChatResponse.js` — the canned-response model with `matchesText` and its
    own `calculateRelevance`;
  * `src/services/chatService.js` — `processMessage`, the chat orchestrator;
  * `src/controllers/chatController.js` — `sendMessage`, the HTTP entry point with its
    own parallel matching pipeline.

Modelling choices (shallow embedding):
  * A JavaScript string is a list of Unicode code points (`List Char`).  `toLowerCase`
    and `String.prototype.normalize('NFD')` are modelled code-point-wise by explicit
    tables covering the Latin alphabet this Spanish-oriented system works with
    (ASCII letters and the accented letters á é í ó ú ü ñ and their uppercase forms);
    every other code point is left fixed and has a singleton decomposition.
  * `s.split(/\s+/)` is modelled exactly, including the JavaScript corner cases
    (`"".split(/\s+/) = [""]`, leading/trailing separators produce empty segments).
  * Numeric scores (JS doubles) are modelled as exact rationals; the weights
    1.0 / 0.7 / 0.4 and the threshold 0.6 become 1, 7/10, 2/5 and 3/5.
  * `Math.random()`-based selection is modelled by an explicit `pick : Nat` argument;
    the JS code indexes `pool[Math.floor(Math.random() * pool.length)]`, modelled as
    `pool[pick % pool.length]`.
  * Storage lookups (`jsonStore.find`) are modelled as explicit, already-loaded
    collections passed in a store record; storage failures are outside the model.
-/

namespace BackHackaton

/-- A JavaScript string, as a list of Unicode code points. -/
abbrev Str := List Char

/-- Shorthand turning a Lean string literal into the code-point model. -/
def str (s : String) : Str := s.toList

/-- Whitespace, as matched by `\s` and removed by `trim`, restricted to the
whitespace characters that occur in this system's data. -/
def isWs (c : Char) : Bool := c = ' ' || c = '\t' || c = '\n' || c = '\r'

/-- Model of `String.prototype.trim`: drop leading and trailing whitespace. -/
def jsTrim (s : Str) : Str :=
  ((s.dropWhile isWs).reverse.dropWhile isWs).reverse

/-- Association-list lookup used for the character tables below. -/
def tableLookup {α : Type} (t : List (Char × α)) (c : Char) : Option α :=
  match t with
  | [] => none
  | (k, v) :: rest => if c = k then some v else tableLookup rest c

/-- Lowercasing table: ASCII uppercase plus the accented uppercase letters the
system's Spanish data uses.  `toLowerCase` is the identity elsewhere. -/
def lowerTable : List (Char × Char) :=
  [('A', 'a'), ('B', 'b'), ('C', 'c'), ('D', 'd'), ('E', 'e'), ('F', 'f'),
   ('G', 'g'), ('H', 'h'), ('I', 'i'), ('J', 'j'), ('K', 'k'), ('L', 'l'),
   ('M', 'm'), ('N', 'n'), ('O', 'o'), ('P', 'p'), ('Q', 'q'), ('R', 'r'),
   ('S', 's'), ('T', 't'), ('U', 'u'), ('V', 'v'), ('W', 'w'), ('X', 'x'),
   ('Y', 'y'), ('Z', 'z'),
   ('Á', 'á'), ('É', 'é'), ('Í', 'í'), ('Ó', 'ó'), ('Ú', 'ú'), ('Ü', 'ü'),
   ('Ñ', 'ñ')]

/-- Code-point-wise model of `toLowerCase`. -/
def lowerChar (c : Char) : Char := (tableLookup lowerTable c).getD c

/-- The combining acute accent U+0301. -/
def accAcute : Char := Char.ofNat 0x301

/-- The combining tilde U+0303. -/
def accTilde : Char := Char.ofNat 0x303

/-- The combining diaeresis U+0308. -/
def accDiaeresis : Char := Char.ofNat 0x308

/-- Canonical decomposition table for the accented letters in use; NFD is the
identity (singleton) decomposition on every other code point of the model. -/
def nfdTable : List (Char × Str) :=
  [('á', ['a', accAcute]), ('é', ['e', accAcute]), ('í', ['i', accAcute]),
   ('ó', ['o', accAcute]), ('ú', ['u', accAcute]), ('ü', ['u', accDiaeresis]),
   ('ñ', ['n', accTilde]),
   ('Á', ['A', accAcute]), ('É', ['E', accAcute]), ('Í', ['I', accAcute]),
   ('Ó', ['O', accAcute]), ('Ú', ['U', accAcute]), ('Ü', ['U', accDiaeresis]),
   ('Ñ', ['N', accTilde])]

/-- Code-point-wise model of `normalize('NFD')`. -/
def nfdChar (c : Char) : Str := (tableLookup nfdTable c).getD [c]

/-- The combining diacritical marks block U+0300–U+036F, the range removed by
the `replace(/[̀-ͯ]/g, '')` step. -/
def isCombining (c : Char) : Bool :=
  decide (0x300 ≤ c.toNat) && decide (c.toNat ≤ 0x36F)

/-- Model of plain `toLowerCase()` on a whole string (used by `ChatResponse`,
which lowercases without stripping diacritics). -/
def jsLower (s : Str) : Str := s.map lowerChar

/-- The `normalizeText` helper, defined identically in `textMatcher.js`,
`chatService.js` and `chatController.js`: lowercase, Unicode-decompose,
strip combining diacritical marks, trim. -/
def normalizeText (s : Str) : Str :=
  jsTrim (((s.map lowerChar).flatMap nfdChar).filter (fun c => !isCombining c))

/-- Model of `haystack.includes(needle)`: substring containment. -/
def jsIncludes (hay needle : Str) : Bool := decide (needle <:+: hay)

mutual

/-- Model of `s.split(/\s+/)`: accumulate the current segment (reversed) while
scanning; a whitespace character ends the segment and the rest of its
whitespace run is consumed by `splitWsSkip`. -/
def splitWsGo : Str → Str → List Str
  | [], acc => [acc.reverse]
  | c :: rest, acc =>
    if isWs c then acc.reverse :: splitWsSkip rest
    else splitWsGo rest (c :: acc)

/-- After a whitespace run has started: skip the rest of the run; if the string
ends here the JS split yields a trailing empty segment. -/
def splitWsSkip : Str → List Str
  | [] => [[]]
  | c :: rest => if isWs c then splitWsSkip rest else splitWsGo rest [c]

end

/-- Model of `s.split(/\s+/)`. -/
def splitWs (s : Str) : List Str := splitWsGo s []

/-- The Spanish stop-word list `NLP.STOP_WORDS` from `aiChatConfig.js`. -/
def STOP_WORDS : List Str :=
  [str "el", str "la", str "los", str "las", str "un", str "una", str "unos",
   str "unas", str "de", str "del", str "a", str "ante", str "con", str "en",
   str "para", str "por", str "sin", str "sobre", str "tras", str "y", str "o",
   str "pero", str "que", str "si"]

/-- The `removeStopWords` helper from `textMatcher.js`: split on whitespace
runs, drop stop words, rejoin with single spaces. -/
def removeStopWords (s : Str) : Str :=
  if STOP_WORDS.isEmpty then s
  else List.intercalate (str " ") ((splitWs s).filter (fun w => !STOP_WORDS.contains w))

example : normalizeText (str "Café") = str "cafe" := rfl
example : normalizeText (str "  Diseño Gráfico ") = str "diseno grafico" := rfl
example : normalizeText (str "Diseño") = str "diseno" := rfl
example : splitWs (str "a  b") = [str "a", str "b"] := rfl
example : splitWs (str "") = [str ""] := rfl
example : splitWs (str "a ") = [str "a", str ""] := rfl
example : removeStopWords (str "el diseno de la web") = str "diseno web" := rfl
example : removeStopWords (str "el") = str "" := rfl

/-! ## Configuration (`aiChatConfig.js`) -/

/-- Weight `NLP.WEIGHTS.EXACT_MATCH` (1.0). -/
def EXACT_MATCH : ℚ := 1

/-- Weight `NLP.WEIGHTS.PARTIAL_MATCH` (0.7). -/
def PARTIAL_MATCH : ℚ := 7/10

/-- Weight `NLP.WEIGHTS.RELATED_TERM` (0.4). -/
def RELATED_TERM : ℚ := 2/5

/-- `MATCH_THRESHOLD` (0.6). -/
def MATCH_THRESHOLD : ℚ := 3/5

/-- `MAX_RESULTS.CATEGORIES`. -/
def MAX_CATEGORIES : Nat := 3

/-- `MAX_RESULTS.SERVICES`. -/
def MAX_SERVICES : Nat := 5

/-- `MAX_RESULTS.SUGGESTIONS`. -/
def MAX_SUGGESTIONS : Nat := 4

/-- `DEFAULT_RESPONSES` (four default fallback messages). -/
def DEFAULT_RESPONSES : List Str :=
  [str "No he encontrado información específica sobre eso. ¿Podrías darme más detalles?",
   str "No tengo una respuesta para eso. ¿Te gustaría ver las categorías disponibles?",
   str "No estoy seguro de entender tu consulta. ¿Qué tipo de servicio estás buscando?",
   str "Parece que no tenemos esa categoría específica. ¿Puedo mostrarte alternativas similares?"]

/-- `DEFAULT_SUGGESTIONS` (five default suggestions). -/
def DEFAULT_SUGGESTIONS : List Str :=
  [str "Ver todas las categorías",
   str "Servicios más populares",
   str "¿Cómo funciona la plataforma?",
   str "Necesito un desarrollo web",
   str "Busco diseño gráfico"]

/-- `GREETING_PHRASES`. -/
def GREETING_PHRASES : List Str :=
  [str "hola", str "hello", str "hi", str "buenos días", str "buenas tardes",
   str "buenas noches", str "qué tal", str "saludos", str "hey"]

/-- `FAREWELL_PHRASES`. -/
def FAREWELL_PHRASES : List Str :=
  [str "adiós", str "bye", str "chao", str "hasta luego", str "nos vemos", str "gracias"]

/-! ## Keyword matcher (`textMatcher.js`) -/

/-- Options record of `hasKeywords` (after merging its defaults). -/
structure MatchOptions where
  minMatches : ℚ
  matchThreshold : ℚ
  partialMatches : Bool
  removeStopWords : Bool

/-- The options `hasKeywords` runs with when callers pass no options object. -/
def defaultOptions : MatchOptions := ⟨1, MATCH_THRESHOLD, true, false⟩

/-- Partial-match contribution of one (already normalized) keyword in
`calculateRelevance` (lines 128–137 of `textMatcher.js`): if the keyword is
multi-word, score the proportion of its parts found in the cleaned text,
weighted by `PARTIAL_MATCH`.  There is no threshold test on this path. -/
def partialScore (cleaned k : Str) : ℚ :=
  if k.contains ' ' then
    let parts := splitWs k
    (((parts.countP (fun p => jsIncludes cleaned p)) : ℚ) / (parts.length : ℚ)) * PARTIAL_MATCH
  else 0

/-- Related-term contribution of one (already normalized) keyword (lines
139–145 of `textMatcher.js`): `RELATED_TERM` if some word of the cleaned text
is a substring of the keyword or vice versa. -/
def relatedScore (words : List Str) (k : Str) : ℚ :=
  if words.any (fun w => jsIncludes k w || jsIncludes w k) then RELATED_TERM else 0

/-- Per-keyword score in `calculateRelevance`: an exact substring match earns
`EXACT_MATCH` and short-circuits (`continue`); otherwise the partial and the
related-term contributions are BOTH accumulated (the partial branch of
`calculateRelevance` has no `continue`). -/
def keywordScore (cleaned : Str) (words : List Str) (kw : Str) : ℚ :=
  let k := normalizeText kw
  if jsIncludes cleaned k then EXACT_MATCH
  else partialScore cleaned k + relatedScore words k

/-- `calculateRelevance(text, keywords)` from `textMatcher.js`. -/
def calculateRelevance (text : Str) (keywords : List Str) : ℚ :=
  if text.isEmpty || keywords.isEmpty then 0
  else
    let cleaned := removeStopWords (normalizeText text)
    let words := splitWs cleaned
    (keywords.map (keywordScore cleaned words)).sum

/-- Fraction of a multi-word keyword's parts found in the cleaned text
(`partMatches / keywordParts.length`). -/
def partFraction (cleaned k : Str) : ℚ :=
  (((splitWs k).countP (fun p => jsIncludes cleaned p)) : ℚ) / ((splitWs k).length : ℚ)

/-- Per-keyword contribution to the match count in `hasKeywords` (lines 60–90
of `textMatcher.js`): exact match earns `EXACT_MATCH` and stops; else a
multi-word keyword whose matched-part fraction reaches the threshold earns
`PARTIAL_MATCH` and stops; else the related-term check runs. -/
def hkKeywordScore (opts : MatchOptions) (cleaned : Str) (words : List Str) (kw : Str) : ℚ :=
  let k := normalizeText kw
  if jsIncludes cleaned k then EXACT_MATCH
  else if opts.partialMatches && k.contains ' ' && decide (opts.matchThreshold ≤ partFraction cleaned k) then
    PARTIAL_MATCH
  else relatedScore words k

/-- `hasKeywords(text, keywords, options)` from `textMatcher.js`. -/
def hasKeywords (text : Str) (keywords : List Str) (opts : MatchOptions) : Bool :=
  if text.isEmpty || keywords.isEmpty then false
  else
    let cleaned := if opts.removeStopWords then removeStopWords (normalizeText text)
                   else normalizeText text
    let words := splitWs cleaned
    decide (opts.minMatches ≤ (keywords.map (hkKeywordScore opts cleaned words)).sum)

/-! ## Canned-response model (`ChatResponse.js`) -/

/-- A `ChatResponse` instance (fields after the constructor's defaulting:
`keywords`/`suggestions`/`serviceIds`/`categoryIds` are always arrays,
`priority` defaults to 1, `active` to `true`). -/
structure ChatResponse where
  id : Nat
  keywords : List Str
  text : Str
  suggestions : List Str
  serviceIds : List Nat
  categoryIds : List Nat
  priority : ℚ
  active : Bool
deriving DecidableEq

/-- `ChatResponse.prototype.matchesText`: true when some keyword occurs,
lowercased, as a substring of the lowercased text. -/
def ChatResponse.matchesText (r : ChatResponse) (text : Str) : Bool :=
  if text.isEmpty || r.keywords.isEmpty then false
  else r.keywords.any (fun k => jsIncludes (jsLower text) (jsLower k))

/-- `ChatResponse.prototype.calculateRelevance`: the number of keywords that
occur, lowercased, as substrings of the lowercased text, multiplied by the
response's priority. -/
def ChatResponse.calculateRelevance (r : ChatResponse) (text : Str) : ℚ :=
  if text.isEmpty || r.keywords.isEmpty then 0
  else
    (r.keywords.foldl
      (fun acc k => if jsIncludes (jsLower text) (jsLower k) then acc + 1 else acc) 0)
      * r.priority

/-! ## Backing collections -/

/-- A category record as stored in the `categories` collection. -/
structure Category where
  id : Nat
  name : Str
  slug : Str
  description : Str
  icon : Str
  active : Bool
  keywords : List Str
  popular : Bool
deriving DecidableEq

/-- A service record as stored in the `services` collection. -/
structure Service where
  id : Nat
  title : Str
  description : Str
  price : ℚ
  category : Nat
  provider : Nat
  active : Bool
  keywords : List Str
  tags : List Str
deriving DecidableEq

/-- A raw `chatResponses` record as the controller reads it (no constructor
defaulting: `suggestions` may be absent). -/
structure RawChatResponse where
  keywords : List Str
  text : Str
  suggestions : Option (List Str)
deriving DecidableEq

/-- A user record (only the fields the controller projects). -/
structure UserRec where
  id : Nat
  name : Str
deriving DecidableEq

/-! ## Reply shapes -/

/-- The `{id, name}` category summary nested inside a returned service. -/
structure CategorySummary where
  id : Nat
  name : Str
deriving DecidableEq

/-- The `{id, name, description, icon}` projection of a returned category. -/
structure CategoryData where
  id : Nat
  name : Str
  description : Str
  icon : Str
deriving DecidableEq

/-- The service projection returned by `chatService.processMessage`. -/
structure ServiceData where
  id : Nat
  title : Str
  description : Str
  price : ℚ
  category : Option CategorySummary
deriving DecidableEq

/-- The `{id, name}` provider summary nested inside the controller's services. -/
structure ProviderSummary where
  id : Nat
  name : Str
deriving DecidableEq

/-- The service projection returned by `chatController.sendMessage` (it also
resolves the provider). -/
structure ServiceDataP where
  id : Nat
  title : Str
  description : Str
  price : ℚ
  category : Option CategorySummary
  provider : Option ProviderSummary
deriving DecidableEq

/-- The `ChatReply` produced by `chatService.processMessage`: a `text` variant
or a `search_results` variant. -/
inductive Reply where
  | text (message : Str) (suggestions : List Str)
  | searchResults (message : Str) (categories : List CategoryData)
      (services : List ServiceData) (suggestions : List Str)
deriving DecidableEq

/-- The categories carried by a reply (a `text` reply carries none). -/
def Reply.categories : Reply → List CategoryData
  | .text _ _ => []
  | .searchResults _ cs _ _ => cs

/-- The services carried by a reply (a `text` reply carries none). -/
def Reply.services : Reply → List ServiceData
  | .text _ _ => []
  | .searchResults _ _ ss _ => ss

/-- The suggestions carried by a reply. -/
def Reply.suggestions : Reply → List Str
  | .text _ sg => sg
  | .searchResults _ _ _ sg => sg

/-- The reply of `chatController.sendMessage`; its `search_results` variant
carries no suggestions field. -/
inductive ReplyH where
  | text (message : Str) (suggestions : List Str)
  | searchResults (message : Str) (categories : List CategoryData)
      (services : List ServiceDataP)
deriving DecidableEq

/-- The collections `chatService.processMessage` loads. -/
structure Store where
  categories : List Category
  services : List Service
  chatResponses : List ChatResponse

/-- The collections `chatController.sendMessage` loads (it additionally reads
`users` to resolve providers and keeps its chat responses raw). -/
structure StoreH where
  categories : List Category
  services : List Service
  chatResponses : List RawChatResponse
  users : List UserRec

/-! ## Shared helpers of both pipelines -/

/-- `isGreeting` from `chatService.js`/`chatController.js`: the normalized
message contains (or equals) some greeting phrase. -/
def isGreeting (message : Str) : Bool :=
  GREETING_PHRASES.any (fun phrase => jsIncludes message phrase || message == phrase)

/-- `isFarewell` from `chatService.js`. -/
def isFarewell (message : Str) : Bool :=
  FAREWELL_PHRASES.any (fun phrase => jsIncludes message phrase || message == phrase)

/-- The fixed greeting pool of `getRandomGreeting`. -/
def greetingPool : List Str :=
  [str "¡Hola! Soy el asistente virtual del Marketplace de Servicios. ¿En qué puedo ayudarte hoy?",
   str "¡Bienvenido! ¿Qué tipo de servicio estás buscando?",
   str "Hola, estoy aquí para ayudarte a encontrar el servicio perfecto. ¿Qué necesitas?",
   str "¡Saludos! Cuéntame, ¿qué tipo de servicio estás buscando?"]

/-- The fixed farewell pool of `getRandomFarewell`. -/
def farewellPool : List Str :=
  [str "¡Hasta pronto! Espero haberte ayudado.",
   str "Ha sido un placer asistirte. ¡Vuelve cuando quieras!",
   str "¡Adiós! Si necesitas algo más, estaré aquí.",
   str "Gracias por usar nuestro servicio. ¡Que tengas un buen día!"]

/-- `getRandomGreeting`, with the pseudo-random index made explicit. -/
def getRandomGreeting (pick : Nat) : Str :=
  greetingPool.getD (pick % greetingPool.length) []

/-- `getRandomFarewell`, with the pseudo-random index made explicit. -/
def getRandomFarewell (pick : Nat) : Str :=
  farewellPool.getD (pick % farewellPool.length) []

/-- `getRandomDefaultResponse`, with the pseudo-random index made explicit. -/
def getRandomDefaultResponse (pick : Nat) : Str :=
  DEFAULT_RESPONSES.getD (pick % DEFAULT_RESPONSES.length) []

/-- The fixed `search_results` message. -/
def searchResultsMessage : Str :=
  str "¡He encontrado algunas opciones que podrían interesarte!"

/-! ## Chat orchestrator (`chatService.processMessage`) -/

/-- The `exactMatches` filter of `processMessage`: canned responses that match
the normalized message and are active. -/
def cannedCandidates (nm : Str) (models : List ChatResponse) : List ChatResponse :=
  models.filter (fun r => r.matchesText nm && r.active)

/-- The sort key of the canned-response ranking stage:
`response.calculateRelevance(normalizedMessage)`. -/
def cannedScore (nm : Str) (r : ChatResponse) : ℚ := r.calculateRelevance nm

/-- The candidates ordered by `exactMatches.sort((a, b) => relevanceB - relevanceA)`:
JavaScript's sort is stable, so this is the stable descending sort by score. -/
def cannedSorted (nm : Str) (models : List ChatResponse) : List ChatResponse :=
  List.insertionSort (fun a b => cannedScore nm b ≤ cannedScore nm a)
    (cannedCandidates nm models)

/-- The selected canned response: the head of the sorted candidates
(`sorted[0]`), or `none` when `exactMatches` is empty. -/
def bestCanned (nm : Str) (models : List ChatResponse) : Option ChatResponse :=
  (cannedSorted nm models).head?

/-- Resolution of a canned response's `categoryIds`: look each id up and keep
the projection of the ones found and active. -/
def resolveCategories (cats : List Category) (ids : List Nat) : List CategoryData :=
  ids.filterMap (fun catId =>
    match cats.find? (fun c => c.id == catId) with
    | some c => if c.active then some ⟨c.id, c.name, c.description, c.icon⟩ else none
    | none => none)

/-- Projection of a service for `processMessage`, resolving its category to an
`{id, name}` summary (with no `active` check on the nested category). -/
def mkServiceData (cats : List Category) (s : Service) : ServiceData :=
  ⟨s.id, s.title, s.description, s.price,
    match cats.find? (fun c => c.id == s.category) with
    | some c => some ⟨c.id, c.name⟩
    | none => none⟩

/-- Resolution of a canned response's `serviceIds`: keep the found, active
services, projected with their category summary. -/
def resolveServices (cats : List Category) (svcs : List Service) (ids : List Nat) :
    List ServiceData :=
  ids.filterMap (fun svcId =>
    match svcs.find? (fun s => s.id == svcId) with
    | some s => if s.active then some (mkServiceData cats s) else none
    | none => none)

/-- The category gate of `processMessage` step 2: inactive categories are
dropped, then the normalized message must contain the normalized name, or the
category's keywords must pass the boolean `hasKeywords` gate. -/
def categoryMatches (nm : Str) (c : Category) : Bool :=
  if !c.active then false
  else if jsIncludes nm (normalizeText c.name) then true
  else if !c.keywords.isEmpty then hasKeywords nm c.keywords defaultOptions
  else false

/-- The service gate of `processMessage` step 3: inactive services are
dropped, then title containment, else the keyword gate, else tag containment. -/
def serviceMatches (nm : Str) (s : Service) : Bool :=
  if !s.active then false
  else if jsIncludes nm (normalizeText s.title) then true
  else if !s.keywords.isEmpty then hasKeywords nm s.keywords defaultOptions
  else if !s.tags.isEmpty then s.tags.any (fun tag => jsIncludes nm (normalizeText tag))
  else false

/-- `getSearchSuggestions`: two category-derived suggestions plus two default
ones when categories matched; all five defaults otherwise. -/
def getSearchSuggestions (matched : List Category) : List Str :=
  if matched.length > 0 then
    (matched.take 2).map (fun c => str "Más servicios de " ++ c.name)
      ++ DEFAULT_SUGGESTIONS.take 2
  else DEFAULT_SUGGESTIONS

/-- Steps 2–4 of `processMessage` when a canned response was selected: resolve
its linked categories and services (active only) and reply with them, or with
the bare text.  The source's `bestMatch.suggestions || []` and
`bestMatch.suggestions || DEFAULT_SUGGESTIONS` both reduce to
`bestMatch.suggestions`, because the `ChatResponse` constructor always makes
`suggestions` an array and arrays — even empty ones — are truthy in
JavaScript. -/
def cannedStage (st : Store) (bestMatch : ChatResponse) : Reply :=
  let relatedCategories := resolveCategories st.categories bestMatch.categoryIds
  let relatedServices := resolveServices st.categories st.services bestMatch.serviceIds
  if relatedCategories.length > 0 || relatedServices.length > 0 then
    .searchResults bestMatch.text relatedCategories relatedServices bestMatch.suggestions
  else
    .text bestMatch.text bestMatch.suggestions

/-- Steps 2–4 of `processMessage` when no canned response matched: the boolean
category/service gates, truncated by position, else the random default reply. -/
def gateStage (st : Store) (pick : Nat) (nm : Str) : Reply :=
  let matchedCategories := (st.categories.filter (categoryMatches nm)).take MAX_CATEGORIES
  let matchedServices := (st.services.filter (serviceMatches nm)).take MAX_SERVICES
  if matchedCategories.length > 0 || matchedServices.length > 0 then
    .searchResults searchResultsMessage
      (matchedCategories.map (fun c => ⟨c.id, c.name, c.description, c.icon⟩))
      (matchedServices.map (mkServiceData st.categories))
      (getSearchSuggestions matchedCategories)
  else .text (getRandomDefaultResponse pick) DEFAULT_SUGGESTIONS

/-- `chatService.processMessage`: normalize, greeting short-circuit, farewell
short-circuit, canned-response ranking, category/service gates, default. -/
def processMessage (st : Store) (pick : Nat) (message : Str) : Reply :=
  let nm := normalizeText message
  if isGreeting nm then .text (getRandomGreeting pick) DEFAULT_SUGGESTIONS
  else if isFarewell nm then .text (getRandomFarewell pick) []
  else
    match bestCanned nm st.chatResponses with
    | some bestMatch => cannedStage st bestMatch
    | none => gateStage st pick nm

/-! ## HTTP entry point (`chatController.sendMessage`) -/

/-- The category filter of `sendMessage` step 2.  It checks the keyword gate
when keywords exist, else name/description containment — and, unlike the
service filter below and unlike `processMessage`, it never reads
`category.active`. -/
def categoryMatchesH (nm : Str) (c : Category) : Bool :=
  if !c.keywords.isEmpty then hasKeywords nm c.keywords defaultOptions
  else jsIncludes nm (normalizeText c.name)
    || (!c.description.isEmpty && jsIncludes nm (normalizeText c.description))

/-- The service filter of `sendMessage` step 3 (`service.active === false` is
dropped first). -/
def serviceMatchesH (nm : Str) (s : Service) : Bool :=
  if !s.active then false
  else if !s.keywords.isEmpty then hasKeywords nm s.keywords defaultOptions
  else jsIncludes nm (normalizeText s.title)
    || (!s.description.isEmpty && jsIncludes nm (normalizeText s.description))

/-- Projection of a service for `sendMessage`, resolving category and provider. -/
def mkServiceDataP (st : StoreH) (s : Service) : ServiceDataP :=
  ⟨s.id, s.title, s.description, s.price,
    match st.categories.find? (fun c => c.id == s.category) with
    | some c => some ⟨c.id, c.name⟩
    | none => none,
    match st.users.find? (fun u => u.id == s.provider) with
    | some u => some ⟨u.id, u.name⟩
    | none => none⟩

/-- The body of `sendMessage` once the message has been validated: greeting
short-circuit, then the category/service gates (truncated by position), then
the first raw canned response passing the keyword gate, then the random
default. -/
def sendMessagePipeline (st : StoreH) (pick : Nat) (message : Str) : ReplyH :=
  let nm := normalizeText message
  if isGreeting nm then .text (getRandomGreeting pick) DEFAULT_SUGGESTIONS
  else
    let matchedCategories := st.categories.filter (categoryMatchesH nm)
    let matchedServices := st.services.filter (serviceMatchesH nm)
    if matchedCategories.length > 0 || matchedServices.length > 0 then
      .searchResults searchResultsMessage
        ((matchedCategories.take MAX_CATEGORIES).map (fun c => ⟨c.id, c.name, c.description, c.icon⟩))
        ((matchedServices.take MAX_SERVICES).map (mkServiceDataP st))
    else
      match st.chatResponses.find? (fun r => hasKeywords nm r.keywords defaultOptions) with
      | some r => .text r.text (r.suggestions.getD DEFAULT_SUGGESTIONS)
      | none => .text (getRandomDefaultResponse pick) DEFAULT_SUGGESTIONS

/-- The value of `req.body.message`: a string, or anything else (absent,
null, number, …). -/
inductive JSVal where
  | str (s : Str)
  | nonString
deriving DecidableEq

/-- The error taxonomy of the chat entry point: the 400 "Se requiere un
mensaje válido" rejection. -/
inductive ChatError where
  | invalidInput
deriving DecidableEq

/-- The guard `!message || typeof message !== 'string'` of `sendMessage`:
valid inputs are exactly the non-empty strings. -/
def jsValidMessage : JSVal → Bool
  | .str s => !s.isEmpty
  | .nonString => false

/-- `chatController.sendMessage`: reject empty or non-string messages with the
`InvalidInput` (HTTP 400) outcome, otherwise run the total pipeline. -/
def sendMessage (st : StoreH) (pick : Nat) (body : JSVal) : Except ChatError ReplyH :=
  match body with
  | .str s => if s.isEmpty then .error .invalidInput else .ok (sendMessagePipeline st pick s)
  | .nonString => .error .invalidInput

/-- Whether an outcome of `sendMessage` is a successful reply. -/
def resultIsOk : Except ChatError ReplyH → Bool
  | .ok _ => true
  | .error _ => false

/-! ## Character-level view of `normalizeText`, for the idempotence proof -/

/-- The per-code-point pipeline of `normalizeText` (lowercase, decompose,
strip combining marks), before trimming. -/
def charPipe (c : Char) : Str :=
  (nfdChar (lowerChar c)).filter (fun d => !isCombining d)

/-- A code point the pipeline leaves alone. -/
def charFixed (d : Char) : Bool := charPipe d == [d]

/-- All code points the two character tables mention. -/
def specialChars : List Char :=
  ['A', 'B', 'C', 'D', 'E', 'F', 'G', 'H', 'I', 'J', 'K', 'L', 'M',
   'N', 'O', 'P', 'Q', 'R', 'S', 'T', 'U', 'V', 'W', 'X', 'Y', 'Z',
   'Á', 'É', 'Í', 'Ó', 'Ú', 'Ü', 'Ñ',
   'á', 'é', 'í', 'ó', 'ú', 'ü', 'ñ']

/-! ## Concrete fixtures used in witnesses and counterexamples -/

/-- A canned response carrying one single-word and one multi-word keyword. -/
def mixedResponse : ChatResponse :=
  ⟨1, [str "web", str "diseño grafico profesional"],
   str "Tenemos servicios de desarrollo web.", [], [], [], 1, true⟩

/-- An inactive category whose keywords match web-related queries. -/
def inactiveWebCategory : Category :=
  ⟨1, str "Desarrollo Web", str "desarrollo-web", str "", str "", false, [str "web"], false⟩

/-- A controller store whose only category is inactive. -/
def storeWithInactiveCategory : StoreH := ⟨[inactiveWebCategory], [], [], []⟩

/-- An empty service store. -/
def emptyStore : Store := ⟨[], [], []⟩

/-- An empty controller store. -/
def emptyStoreH : StoreH := ⟨[], [], [], []⟩

/-- Canned response scoring 1 on the message `"precio costo"`. -/
def respA : ChatResponse := ⟨1, [str "precio"], str "A", [], [], [], 1, true⟩

/-- Canned response scoring 2 on the message `"precio costo"`. -/
def respB : ChatResponse := ⟨2, [str "precio", str "costo"], str "B", [], [], [], 1, true⟩

/-- Canned response scoring 1 on the message `"precio costo"`, listed after
`respA`. -/
def respC : ChatResponse := ⟨3, [str "costo"], str "C", [], [], [], 1, true⟩

/-- A service store with one active category and one canned response, used to
show greeting replies ignore the collections. -/
def someStore : Store :=
  ⟨[⟨2, str "Web", str "web", str "", str "", true, [str "web"], true⟩], [], [respA]⟩


/-! ## Lemmas about the character pipeline -/

lemma tableLookup_eq_none {α : Type} (t : List (Char × α)) (c : Char)
    (h : ∀ p ∈ t, c ≠ p.1) : tableLookup t c = none := by
  induction t with
  | nil => rfl
  | cons p rest ih =>
    obtain ⟨k, v⟩ := p
    have hk : c ≠ k := h (k, v) (by simp)
    simp only [tableLookup, if_neg hk]
    exact ih (fun q hq => h q (by simp [hq]))

lemma mem_special_of_lowerKey : ∀ p ∈ lowerTable, p.1 ∈ specialChars := by decide

lemma mem_special_of_nfdKey : ∀ p ∈ nfdTable, p.1 ∈ specialChars := by decide

lemma lowerChar_of_not_special {c : Char} (h : c ∉ specialChars) : lowerChar c = c := by
  unfold lowerChar
  rw [tableLookup_eq_none lowerTable c (fun p hp hc => h (hc ▸ mem_special_of_lowerKey p hp))]
  rfl

lemma nfdChar_of_not_special {c : Char} (h : c ∉ specialChars) : nfdChar c = [c] := by
  unfold nfdChar
  rw [tableLookup_eq_none nfdTable c (fun p hp hc => h (hc ▸ mem_special_of_nfdKey p hp))]
  rfl

lemma special_all_fixed : specialChars.all (fun c => (charPipe c).all charFixed) = true := by
  decide

lemma charPipe_fixed {c d : Char} (hd : d ∈ charPipe c) : charPipe d = [d] := by
  by_cases hc : c ∈ specialChars
  · have h1 := List.all_eq_true.mp special_all_fixed c hc
    have h2 := List.all_eq_true.mp h1 d hd
    simpa [charFixed] using h2
  · have h1 : lowerChar c = c := lowerChar_of_not_special hc
    have h2 : nfdChar c = [c] := nfdChar_of_not_special hc
    unfold charPipe at hd
    rw [h1, h2] at hd
    by_cases hcomb : isCombining c
    · simp [hcomb] at hd
    · simp [List.filter, hcomb] at hd
      subst hd
      unfold charPipe
      rw [h1, h2]
      simp [List.filter, hcomb]

lemma normalizeText_eq_trim_flatMap (s : Str) :
    normalizeText s = jsTrim (s.flatMap charPipe) := by
  unfold normalizeText
  congr 1
  induction s with
  | nil => rfl
  | cons c t ih =>
    simp only [List.map_cons, List.flatMap_cons, List.filter_append, ih]
    rfl

lemma flatMap_charPipe_of_fixed {l : Str} (h : ∀ d ∈ l, charPipe d = [d]) :
    l.flatMap charPipe = l := by
  induction l with
  | nil => rfl
  | cons c t ih =>
    simp only [List.flatMap_cons, h c (by simp)]
    rw [ih (fun d hd => h d (by simp [hd]))]
    rfl

lemma mem_of_mem_jsTrim {d : Char} {l : Str} (h : d ∈ jsTrim l) : d ∈ l := by
  unfold jsTrim at h
  rw [List.mem_reverse] at h
  have h1 : d ∈ (l.dropWhile isWs).reverse := (List.dropWhile_sublist _).mem h
  rw [List.mem_reverse] at h1
  exact (List.dropWhile_sublist _).mem h1

lemma head?_dropWhile_false (p : Char → Bool) (l : Str) :
    ∀ x, (l.dropWhile p).head? = some x → p x = false := by
  induction l with
  | nil => simp
  | cons c t ih =>
    intro x hx
    by_cases hc : p c
    · rw [List.dropWhile_cons, if_pos hc] at hx
      exact ih x hx
    · rw [List.dropWhile_cons, if_neg hc] at hx
      simp only [List.head?_cons, Option.some.injEq] at hx
      rw [← hx]
      exact Bool.of_not_eq_true hc

lemma dropWhile_eq_self_of_head (p : Char → Bool) (l : Str)
    (h : ∀ x, l.head? = some x → p x = false) : l.dropWhile p = l := by
  cases l with
  | nil => rfl
  | cons c t => rw [List.dropWhile_cons, if_neg (by simp [h c rfl])]

lemma jsTrim_idem (l : Str) : jsTrim (jsTrim l) = jsTrim l := by
  set A := l.dropWhile isWs with hA
  have hrev : (jsTrim l).reverse = A.reverse.dropWhile isWs := by
    unfold jsTrim
    rw [← hA, List.reverse_reverse]
  have hpre : ∃ t, jsTrim l ++ t = A := by
    obtain ⟨s, hs⟩ := List.dropWhile_suffix (l := A.reverse) (p := isWs)
    refine ⟨s.reverse, ?_⟩
    have := congrArg List.reverse hs
    rw [List.reverse_append, List.reverse_reverse] at this
    rw [← hrev, List.reverse_reverse] at this
    exact this
  have hhead : ∀ x, (jsTrim l).head? = some x → isWs x = false := by
    intro x hx
    obtain ⟨t, ht⟩ := hpre
    have hAx : A.head? = some x := by
      rw [← ht, List.head?_append, hx]
      rfl
    exact head?_dropWhile_false isWs l x (hA ▸ hAx)
  show ((jsTrim l |>.dropWhile isWs).reverse.dropWhile isWs).reverse = jsTrim l
  rw [dropWhile_eq_self_of_head isWs (jsTrim l) hhead, hrev,
    dropWhile_eq_self_of_head isWs (A.reverse.dropWhile isWs)
      (head?_dropWhile_false isWs A.reverse), ← hrev, List.reverse_reverse]

/-- C9: text normalization is idempotent — `normalize(normalize(s)) ==
normalize(s)` for every string `s`, where `normalize` lowercases,
Unicode-decomposes, strips combining diacritical marks and trims. -/
theorem c9_normalizeText_idempotent (s : Str) :
    normalizeText (normalizeText s) = normalizeText s := by
  rw [normalizeText_eq_trim_flatMap s, normalizeText_eq_trim_flatMap,
    flatMap_charPipe_of_fixed, jsTrim_idem]
  intro d hd
  have h1 : d ∈ s.flatMap charPipe := mem_of_mem_jsTrim hd
  obtain ⟨c, _, hc2⟩ := List.mem_flatMap.mp h1
  exact charPipe_fixed hc2

/-! ## C1: per-keyword contributions in `calculateRelevance` -/

unseal Rat.add Rat.mul Rat.inv in
/-- C1 counterexample: in `calculateRelevance`, the keyword
`"diseño grafico profesional"` against the text `"diseño"` earns a positive
partial-match contribution (7/30) AND a positive related-term contribution
(2/5) in the same call, and its total contribution is their sum — so a keyword
does not contribute via its highest-tier match class only. -/
theorem c1_counterexample :
    partialScore (removeStopWords (normalizeText (str "diseño")))
        (normalizeText (str "diseño grafico profesional")) = 7/30 ∧
    relatedScore (splitWs (removeStopWords (normalizeText (str "diseño"))))
        (normalizeText (str "diseño grafico profesional")) = 2/5 ∧
    keywordScore (removeStopWords (normalizeText (str "diseño")))
        (splitWs (removeStopWords (normalizeText (str "diseño"))))
        (str "diseño grafico profesional") = 7/30 + 2/5 ∧
    ¬ ((7 : ℚ)/30 = 0) := by
  refine ⟨?_, ?_, ?_, by norm_num⟩ <;> decide

/-- C1 (amended): in `calculateRelevance` a keyword that earns the exact-match
contribution earns exactly `EXACT_MATCH` and nothing else; but a keyword
without an exact match contributes the sum of its partial-match and
related-term contributions, which can both be positive in the same call.  The
highest-tier-only rule does hold in `hasKeywords`, where a partial match that
reaches the threshold contributes exactly `PARTIAL_MATCH`. -/
theorem c1_exact_short_circuits (cleaned : Str) (words : List Str) (kw : Str) :
    (jsIncludes cleaned (normalizeText kw) = true →
      keywordScore cleaned words kw = EXACT_MATCH) ∧
    (jsIncludes cleaned (normalizeText kw) = false →
      keywordScore cleaned words kw =
        partialScore cleaned (normalizeText kw) + relatedScore words (normalizeText kw)) ∧
    (jsIncludes cleaned (normalizeText kw) = false →
      (normalizeText kw).contains ' ' = true →
      MATCH_THRESHOLD ≤ partFraction cleaned (normalizeText kw) →
      hkKeywordScore defaultOptions cleaned words kw = PARTIAL_MATCH) := by
  refine ⟨fun h => ?_, fun h => ?_, fun h hsp hth => ?_⟩
  · simp [keywordScore, h]
  · simp [keywordScore, h]
  · have hc : (defaultOptions.partialMatches && (normalizeText kw).contains ' ' &&
        decide (defaultOptions.matchThreshold ≤ partFraction cleaned (normalizeText kw))) = true := by
      rw [show defaultOptions.partialMatches = true from rfl, hsp]
      simp only [Bool.true_and, Bool.and_eq_true, decide_eq_true_eq]
      exact hth
    simp only [hkKeywordScore]
    rw [if_neg (by simp [h]), if_pos hc]

unseal Rat.add Rat.mul Rat.inv in
/-- Witness for `c1_exact_short_circuits` at concrete inputs: the keyword
`"web"` matches the cleaned text `"busco web"` exactly and contributes 1.0;
the keyword `"desarrollo grafico profesional"` against `"desarrollo grafico"`
meets the 2/3 ≥ 0.6 threshold and contributes `PARTIAL_MATCH` in
`hasKeywords`. -/
theorem c1_witness :
    keywordScore (str "busco web") (splitWs (str "busco web")) (str "web") = EXACT_MATCH ∧
    hkKeywordScore defaultOptions (str "desarrollo grafico")
      (splitWs (str "desarrollo grafico")) (str "desarrollo grafico profesional") =
        PARTIAL_MATCH :=
  ⟨(c1_exact_short_circuits (str "busco web") (splitWs (str "busco web")) (str "web")).1
      (by decide),
   (c1_exact_short_circuits (str "desarrollo grafico") (splitWs (str "desarrollo grafico"))
      (str "desarrollo grafico profesional")).2.2 (by decide) (by decide) (by decide)⟩

/-! ## C2: threshold behaviour of the partial-match class -/

unseal Rat.add Rat.mul Rat.inv in
/-- C2 counterexample: with keyword `"diseño grafico profesional"` and the
text `"diseño"` the matched-part fraction is 1/3, strictly below the 0.6
threshold, yet `calculateRelevance` DOES take a partial-match contribution of
(1/3)·0.7 = 7/30 for that keyword (its partial branch has no threshold test),
and the keyword's total contribution is 7/30 + 2/5 rather than the 2/5 it
would be without the partial class. -/
theorem c2_counterexample :
    partFraction (removeStopWords (normalizeText (str "diseño")))
        (normalizeText (str "diseño grafico profesional")) = 1/3 ∧
    (1 : ℚ)/3 < MATCH_THRESHOLD ∧
    partialScore (removeStopWords (normalizeText (str "diseño")))
        (normalizeText (str "diseño grafico profesional")) = 7/30 ∧
    calculateRelevance (str "diseño") [str "diseño grafico profesional"] = 7/30 + 2/5 ∧
    ¬ ((7 : ℚ)/30 + 2/5 = 2/5) := by
  refine ⟨?_, ?_, ?_, ?_, by norm_num⟩ <;> decide

/-- C2 (amended): the `matchThreshold` gate exists only in `hasKeywords`:
there, a non-exact multi-word keyword contributes `PARTIAL_MATCH` precisely
when its matched-part fraction reaches the threshold.  In `calculateRelevance`
the partial-match class instead contributes proportionally — fraction times
`PARTIAL_MATCH` — with no threshold, on top of a possible related-term
contribution. -/
theorem c2_threshold_only_in_hasKeywords (opts : MatchOptions) (cleaned : Str)
    (words : List Str) (kw : Str)
    (hex : jsIncludes cleaned (normalizeText kw) = false)
    (hsp : (normalizeText kw).contains ' ' = true)
    (hpm : opts.partialMatches = true) :
    (hkKeywordScore opts cleaned words kw = PARTIAL_MATCH ↔
      opts.matchThreshold ≤ partFraction cleaned (normalizeText kw)) ∧
    keywordScore cleaned words kw =
      partFraction cleaned (normalizeText kw) * PARTIAL_MATCH
        + relatedScore words (normalizeText kw) := by
  constructor
  · constructor
    · intro h
      by_contra hth
      have hc : (opts.partialMatches && (normalizeText kw).contains ' ' &&
          decide (opts.matchThreshold ≤ partFraction cleaned (normalizeText kw))) = false := by
        rw [hpm, hsp]
        simpa using hth
      have hrel : hkKeywordScore opts cleaned words kw = relatedScore words (normalizeText kw) := by
        simp only [hkKeywordScore]
        rw [if_neg (by simp [hex]), if_neg (by rw [hc]; exact Bool.false_ne_true)]
      rw [hrel] at h
      unfold relatedScore at h
      split at h
      · unfold RELATED_TERM PARTIAL_MATCH at h
        norm_num at h
      · unfold PARTIAL_MATCH at h
        norm_num at h
    · intro hth
      have hc : (opts.partialMatches && (normalizeText kw).contains ' ' &&
          decide (opts.matchThreshold ≤ partFraction cleaned (normalizeText kw))) = true := by
        rw [hpm, hsp]
        simpa using hth
      simp only [hkKeywordScore]
      rw [if_neg (by simp [hex]), if_pos hc]
  · simp only [keywordScore]
    rw [if_neg (by simp [hex])]
    have hps : partialScore cleaned (normalizeText kw) =
        partFraction cleaned (normalizeText kw) * PARTIAL_MATCH := by
      simp only [partialScore, partFraction]
      rw [if_pos hsp]
    rw [hps]

/-- Witness for `c2_threshold_only_in_hasKeywords` at the cited example:
keyword `"diseño grafico profesional"`, text `"diseño"` — `hasKeywords` gives
the keyword no `PARTIAL_MATCH` (fraction 1/3 < 0.6) while `calculateRelevance`
takes the proportional partial score anyway. -/
theorem c2_witness :
    (hkKeywordScore defaultOptions (removeStopWords (normalizeText (str "diseño")))
        (splitWs (removeStopWords (normalizeText (str "diseño"))))
        (str "diseño grafico profesional") = PARTIAL_MATCH ↔
      defaultOptions.matchThreshold ≤
        partFraction (removeStopWords (normalizeText (str "diseño")))
          (normalizeText (str "diseño grafico profesional"))) ∧
    keywordScore (removeStopWords (normalizeText (str "diseño")))
        (splitWs (removeStopWords (normalizeText (str "diseño"))))
        (str "diseño grafico profesional") =
      partFraction (removeStopWords (normalizeText (str "diseño")))
          (normalizeText (str "diseño grafico profesional")) * PARTIAL_MATCH
        + relatedScore (splitWs (removeStopWords (normalizeText (str "diseño"))))
            (normalizeText (str "diseño grafico profesional")) :=
  c2_threshold_only_in_hasKeywords defaultOptions
    (removeStopWords (normalizeText (str "diseño")))
    (splitWs (removeStopWords (normalizeText (str "diseño"))))
    (str "diseño grafico profesional") (by decide) (by decide) (by decide)

/-! ## C3: the score used by the canned-response ranking stage -/

/-- Helper: the counting fold of `ChatResponse.calculateRelevance` counts the
matching keywords. -/
lemma foldl_count_eq (nm : Str) (l : List Str) (n : ℚ) :
    l.foldl (fun acc k => if jsIncludes (jsLower nm) (jsLower k) then acc + 1 else acc) n
      = n + (l.countP (fun k => jsIncludes (jsLower nm) (jsLower k)) : ℚ) := by
  induction l generalizing n with
  | nil => simp
  | cons k t ih =>
    by_cases hk : jsIncludes (jsLower nm) (jsLower k) = true
    · simp only [List.foldl_cons, if_pos hk, ih, List.countP_cons, hk, if_pos]
      push_cast
      ring
    · simp only [List.foldl_cons, if_neg hk, ih, List.countP_cons, hk]
      norm_num

unseal Rat.add Rat.mul Rat.inv in
/-- C3 counterexample: for the message `"busco diseno web"` and an active
candidate with keywords `["web", "diseño grafico profesional"]` and priority
1, the ranking stage's score (`ChatResponse.calculateRelevance`) is 1, while
the Keyword Matcher's weighted relevance times priority is 49/30 — the two
disagree, so the stage's score is NOT the weighted relevance times priority. -/
theorem c3_counterexample :
    cannedCandidates (str "busco diseno web") [mixedResponse] = [mixedResponse] ∧
    cannedScore (str "busco diseno web") mixedResponse = 1 ∧
    calculateRelevance (str "busco diseno web") mixedResponse.keywords
        * mixedResponse.priority = 49/30 ∧
    ¬ ((1 : ℚ) = 49/30) := by
  refine ⟨?_, ?_, ?_, by norm_num⟩ <;> decide

/-- C3 (amended): in the canned-response ranking stage of `processMessage`,
the score of a candidate on a non-empty normalized message equals the NUMBER
of its keywords occurring (lowercased) as substrings of the message,
multiplied by the candidate's priority — not the weighted relevance of the
Keyword Matcher. -/
theorem c3_score_is_count_times_priority (nm : Str) (r : ChatResponse) (h : nm ≠ []) :
    cannedScore nm r =
      (r.keywords.countP (fun k => jsIncludes (jsLower nm) (jsLower k)) : ℚ) * r.priority := by
  unfold cannedScore ChatResponse.calculateRelevance
  have hne : nm.isEmpty = false := by simpa using h
  by_cases hk : r.keywords.isEmpty
  · have hkeq : r.keywords = [] := by simpa using hk
    simp [hne, hkeq]
  · have hcond : (nm.isEmpty || r.keywords.isEmpty) = false := by
      rw [hne, Bool.false_or]
      simpa using hk
    rw [if_neg (by simp [hcond]), foldl_count_eq]
    ring

unseal Rat.add Rat.mul Rat.inv in
/-- Witness for `c3_score_is_count_times_priority`: the fixture candidate on
the message `"busco diseno web"` scores 1 = (1 matching keyword) × (priority 1). -/
theorem c3_witness :
    cannedScore (str "busco diseno web") mixedResponse =
      (mixedResponse.keywords.countP
          (fun k => jsIncludes (jsLower (str "busco diseno web")) (jsLower k)) : ℚ)
        * mixedResponse.priority :=
  c3_score_is_count_times_priority (str "busco diseno web") mixedResponse (by decide)

/-! ## C10: `matchesText` agrees with positive `calculateRelevance` -/

/-- C10: for every `ChatResponse` with positive priority and every string,
`matchesText` returns true exactly when `ChatResponse.calculateRelevance` is
positive — both use the same lowercase substring test, and the relevance is
the matched-keyword count times the priority. -/
theorem c10_matchesText_iff_positive_relevance (r : ChatResponse) (t : Str)
    (hpr : 0 < r.priority) :
    r.matchesText t = true ↔ 0 < r.calculateRelevance t := by
  unfold ChatResponse.matchesText ChatResponse.calculateRelevance
  by_cases hg : (t.isEmpty || r.keywords.isEmpty) = true
  · rw [if_pos hg, if_pos hg]
    simp
  · rw [if_neg hg, if_neg hg, foldl_count_eq]
    constructor
    · intro hm
      obtain ⟨k, hk1, hk2⟩ := List.any_eq_true.mp hm
      have hcp : 0 < r.keywords.countP (fun k => jsIncludes (jsLower t) (jsLower k)) :=
        List.countP_pos_iff.mpr ⟨k, hk1, hk2⟩
      have : (0 : ℚ) < (r.keywords.countP (fun k => jsIncludes (jsLower t) (jsLower k)) : ℚ) := by
        exact_mod_cast hcp
      calc (0 : ℚ) = 0 * r.priority := by ring
        _ < _ := by
            rw [zero_add]
            exact mul_lt_mul_of_pos_right this hpr
    · intro hrel
      by_contra hm
      have hall : ∀ k ∈ r.keywords, ¬ (jsIncludes (jsLower t) (jsLower k) = true) := by
        intro k hk hc
        exact hm (List.any_eq_true.mpr ⟨k, hk, hc⟩)
      have hcp : r.keywords.countP (fun k => jsIncludes (jsLower t) (jsLower k)) = 0 :=
        List.countP_eq_zero.mpr hall
      rw [hcp] at hrel
      norm_num at hrel

/-- Witness for `c10_matchesText_iff_positive_relevance`: the fixture response
(priority 1) on the message `"busco precio"`. -/
theorem c10_witness :
    0 < respA.calculateRelevance (str "busco precio") ∧
    respA.matchesText (str "busco precio") = true :=
  ⟨(c10_matchesText_iff_positive_relevance respA (str "busco precio") (by norm_num [respA])).mp
      (by decide),
   by decide⟩

/-! ## C6: validation and totality of the chat entry point -/

/-- C6: `sendMessage` succeeds exactly on non-empty string messages; on an
empty or non-string message it fails with the `InvalidInput` rejection, and
these are the only error outcomes of the embedded (collaborator-free)
pipeline — on every valid input the matching logic is total and yields a
reply. -/
theorem c6_reject_invalid_total_otherwise (st : StoreH) (pick : Nat) (v : JSVal) :
    resultIsOk (sendMessage st pick v) = jsValidMessage v ∧
    (jsValidMessage v = false → sendMessage st pick v = .error .invalidInput) := by
  cases v with
  | str s =>
    cases hs : s.isEmpty with
    | true =>
      refine ⟨?_, fun _ => ?_⟩ <;> simp [sendMessage, resultIsOk, jsValidMessage, hs]
    | false =>
      refine ⟨?_, fun hv => ?_⟩
      · simp [sendMessage, resultIsOk, jsValidMessage, hs]
      · simp [jsValidMessage, hs] at hv
  | nonString => exact ⟨rfl, fun _ => rfl⟩

/-- Witness for `c6_reject_invalid_total_otherwise`: a non-string body and an
empty string are rejected with `InvalidInput`; the valid message `"hola"`
yields a successful reply. -/
theorem c6_witness :
    sendMessage emptyStoreH 0 .nonString = .error .invalidInput ∧
    sendMessage emptyStoreH 0 (.str []) = .error .invalidInput ∧
    resultIsOk (sendMessage emptyStoreH 0 (.str (str "hola"))) = true :=
  ⟨(c6_reject_invalid_total_otherwise emptyStoreH 0 .nonString).2 rfl,
   (c6_reject_invalid_total_otherwise emptyStoreH 0 (.str [])).2 rfl,
   by rw [(c6_reject_invalid_total_otherwise emptyStoreH 0 (.str (str "hola"))).1]; rfl⟩

/-! ## C7: greeting short-circuit and its precedence over farewell -/

/-- C7: whenever the normalized message equals or contains a greeting phrase,
`processMessage` returns a `text` reply drawn from the fixed greeting pool
with the (non-empty) default suggestions, and the reply does not depend on the
backing collections at all — no category, service or canned-response matching
is reached.  Only the greeting test matters, so this holds even when the
message also matches a farewell phrase: the greeting check runs first. -/
theorem c7_greeting_short_circuit (st st' : Store) (pick : Nat) (message : Str)
    (h : isGreeting (normalizeText message) = true) :
    processMessage st pick message = .text (getRandomGreeting pick) DEFAULT_SUGGESTIONS ∧
    getRandomGreeting pick ∈ greetingPool ∧
    DEFAULT_SUGGESTIONS ≠ [] ∧
    processMessage st pick message = processMessage st' pick message := by
  have hp : ∀ s : Store, processMessage s pick message =
      .text (getRandomGreeting pick) DEFAULT_SUGGESTIONS := by
    intro s
    unfold processMessage
    rw [if_pos h]
  refine ⟨hp st, ?_, by decide, by rw [hp st, hp st']⟩
  unfold getRandomGreeting
  have hlen : pick % greetingPool.length < greetingPool.length :=
    Nat.mod_lt _ (by decide)
  rw [List.getD_eq_getElem?_getD, List.getElem?_eq_getElem hlen, Option.getD_some]
  exact List.getElem_mem hlen

/-- Witness for `c7_greeting_short_circuit`: the message `"Hola gracias"`
contains both the greeting `"hola"` and the farewell `"gracias"`; the reply is
the greeting one, identical over the empty store and a populated store. -/
theorem c7_witness :
    processMessage emptyStore 0 (str "Hola gracias") =
      .text (getRandomGreeting 0) DEFAULT_SUGGESTIONS ∧
    getRandomGreeting 0 ∈ greetingPool ∧
    DEFAULT_SUGGESTIONS ≠ [] ∧
    processMessage emptyStore 0 (str "Hola gracias") =
      processMessage someStore 0 (str "Hola gracias") ∧
    isFarewell (normalizeText (str "Hola gracias")) = true :=
  have h := c7_greeting_short_circuit emptyStore someStore 0 (str "Hola gracias") (by decide)
  ⟨h.1, h.2.1, h.2.2.1, h.2.2.2, by decide⟩

/-! ## C4: result-count truncation -/

/-- C4 counterexample: the greeting reply of `processMessage` carries
`DEFAULT_SUGGESTIONS` untruncated — five suggestions, exceeding
`MAX_RESULTS.SUGGESTIONS` = 4 — so the truncation bound does not hold for
every reply variant. -/
theorem c4_counterexample :
    (processMessage emptyStore 0 (str "hola")).suggestions.length = 5 ∧
    MAX_SUGGESTIONS < (processMessage emptyStore 0 (str "hola")).suggestions.length := by
  exact ⟨rfl, by decide⟩

/-- C4 (amended): the truncation bounds hold for the gate-matching
`search_results` replies: at most `MAX_RESULTS.CATEGORIES` categories, at most
`MAX_RESULTS.SERVICES` services, and at most `MAX_RESULTS.SUGGESTIONS`
suggestions whenever at least one category matched (with no matched category
the reply carries the five default suggestions).  Replies of the other
variants are not truncated: greeting and fallback replies carry the five
default suggestions, and canned-response replies carry their linked
category/service lists and stored suggestions whole. -/
theorem c4_gate_truncation (st : Store) (pick : Nat) (message : Str)
    (hg : isGreeting (normalizeText message) = false)
    (hf : isFarewell (normalizeText message) = false)
    (hc : cannedCandidates (normalizeText message) st.chatResponses = [])
    (m : Str) (cs : List CategoryData) (ss : List ServiceData) (sg : List Str)
    (hr : processMessage st pick message = .searchResults m cs ss sg) :
    cs.length ≤ MAX_CATEGORIES ∧ ss.length ≤ MAX_SERVICES ∧ sg.length ≤ 5 ∧
    (cs ≠ [] → sg.length ≤ MAX_SUGGESTIONS) := by
  have hbc : bestCanned (normalizeText message) st.chatResponses = none := by
    unfold bestCanned cannedSorted
    rw [hc]
    rfl
  have hpm : processMessage st pick message = gateStage st pick (normalizeText message) := by
    unfold processMessage
    rw [if_neg (by simp [hg]), if_neg (by simp [hf]), hbc]
  rw [hpm] at hr
  unfold gateStage at hr
  dsimp only at hr
  split at hr
  · rw [Reply.searchResults.injEq] at hr
    obtain ⟨-, h2, h3, h4⟩ := hr
    refine ⟨?_, ?_, ?_, ?_⟩
    · rw [← h2, List.length_map]
      exact List.length_take_le _ _
    · rw [← h3, List.length_map]
      exact List.length_take_le _ _
    · rw [← h4]
      unfold getSearchSuggestions
      split
      · rw [List.length_append]
        have l1 := List.length_take_le 2
          (st.categories.filter (categoryMatches (normalizeText message)) |>.take MAX_CATEGORIES)
        have l2 := List.length_take_le 2 DEFAULT_SUGGESTIONS
        rw [List.length_map]
        omega
      · decide
    · intro hcs
      rw [← h4]
      unfold getSearchSuggestions
      split
      · rw [List.length_append]
        have l1 := List.length_take_le 2
          (st.categories.filter (categoryMatches (normalizeText message)) |>.take MAX_CATEGORIES)
        have l2 := List.length_take_le 2 DEFAULT_SUGGESTIONS
        rw [List.length_map]
        unfold MAX_SUGGESTIONS
        omega
      · rename_i hlen
        exfalso
        apply hcs
        rw [← h2]
        simp only [List.map_eq_nil_iff]
        rename_i hlen2
        have hlen0 : ((st.categories.filter (categoryMatches (normalizeText message))).take
            MAX_CATEGORIES).length = 0 := by omega
        exact List.length_eq_zero.mp hlen0
  · exact absurd hr (by simp)

/-- Witness for `c4_gate_truncation`: the message `"busco web"` over a store
with one matching active category — the gate reply respects all bounds. -/
theorem c4_witness :
    ([(⟨2, str "Web", str "", str ""⟩ : CategoryData)] : List CategoryData).length ≤ MAX_CATEGORIES ∧
    ([] : List ServiceData).length ≤ MAX_SERVICES ∧
    ([str "Más servicios de Web"] ++ DEFAULT_SUGGESTIONS.take 2).length ≤ 5 ∧
    (([(⟨2, str "Web", str "", str ""⟩ : CategoryData)] : List CategoryData) ≠ [] →
      ([str "Más servicios de Web"] ++ DEFAULT_SUGGESTIONS.take 2).length ≤ MAX_SUGGESTIONS) :=
  c4_gate_truncation someStore 0 (str "busco web") (by rfl) (by rfl) (by rfl)
    searchResultsMessage [⟨2, str "Web", str "", str ""⟩] []
    ([str "Más servicios de Web"] ++ DEFAULT_SUGGESTIONS.take 2) (by rfl)

/-! ## C5: inactive records in replies -/

unseal Rat.add Rat.mul Rat.inv in
/-- C5 (code bug): `chatController.sendMessage` returns an INACTIVE category:
its category filter never reads `category.active` (unlike its own service
filter and unlike `chatService.processMessage`), so on the message
`"necesito web"` a store whose only category is inactive still yields a
`search_results` reply containing that category. -/
theorem c5_inactive_category_returned :
    inactiveWebCategory.active = false ∧
    sendMessage storeWithInactiveCategory 0 (.str (str "necesito web")) =
      .ok (.searchResults searchResultsMessage
        [⟨inactiveWebCategory.id, inactiveWebCategory.name, inactiveWebCategory.description,
          inactiveWebCategory.icon⟩] []) := by
  exact ⟨rfl, by rfl⟩

/-! ## C8: the canned-response ranking is a stable descending sort -/

lemma filter_orderedInsert_of_eq {α : Type} (score : α → ℚ) (q : ℚ) (x : α) (l : List α)
    (hx : score x = q) :
    (List.orderedInsert (fun a b => score b ≤ score a) x l).filter
        (fun a => decide (score a = q)) =
      x :: l.filter (fun a => decide (score a = q)) := by
  induction l with
  | nil => simp [List.orderedInsert, hx]
  | cons b t ih =>
    by_cases hb : score b ≤ score x
    · rw [List.orderedInsert, if_pos hb]
      simp [List.filter_cons, hx]
    · rw [List.orderedInsert, if_neg hb]
      have hbq : decide (score b = q) = false := by
        apply decide_eq_false
        intro he
        exact hb (le_of_eq (hx ▸ he))
      simp only [List.filter_cons, hbq]
      rw [ih]
      simp

lemma filter_orderedInsert_of_ne {α : Type} (score : α → ℚ) (q : ℚ) (x : α) (l : List α)
    (hx : score x ≠ q) :
    (List.orderedInsert (fun a b => score b ≤ score a) x l).filter
        (fun a => decide (score a = q)) =
      l.filter (fun a => decide (score a = q)) := by
  induction l with
  | nil => simp [List.orderedInsert, hx]
  | cons b t ih =>
    by_cases hb : score b ≤ score x
    · rw [List.orderedInsert, if_pos hb]
      simp [List.filter_cons, hx]
    · rw [List.orderedInsert, if_neg hb]
      simp only [List.filter_cons]
      rw [ih]

lemma filter_insertionSort_stable {α : Type} (score : α → ℚ) (q : ℚ) (l : List α) :
    (List.insertionSort (fun a b => score b ≤ score a) l).filter
        (fun a => decide (score a = q)) =
      l.filter (fun a => decide (score a = q)) := by
  induction l with
  | nil => rfl
  | cons x t ih =>
    rw [List.insertionSort]
    by_cases hx : score x = q
    · rw [filter_orderedInsert_of_eq score q x _ hx, ih, List.filter_cons]
      simp [hx]
    · rw [filter_orderedInsert_of_ne score q x _ hx, ih, List.filter_cons]
      simp [hx]

/-- C8: the canned-response stage orders the matching candidates descending by
score; candidates with equal scores keep their original collection order (for
every score value, the sorted list restricted to that score equals the
candidate list restricted to it); and the selected response — when one exists —
is a candidate with maximal score, namely the FIRST candidate attaining that
score in collection order. -/
theorem c8_canned_ranking (nm : Str) (models : List ChatResponse) :
    List.Perm (cannedSorted nm models) (cannedCandidates nm models) ∧
    List.Sorted (fun a b => cannedScore nm b ≤ cannedScore nm a) (cannedSorted nm models) ∧
    (∀ q : ℚ, (cannedSorted nm models).filter (fun r => decide (cannedScore nm r = q)) =
      (cannedCandidates nm models).filter (fun r => decide (cannedScore nm r = q))) ∧
    ∀ b, bestCanned nm models = some b →
      b ∈ cannedCandidates nm models ∧
      (∀ x ∈ cannedCandidates nm models, cannedScore nm x ≤ cannedScore nm b) ∧
      ((cannedCandidates nm models).filter
        (fun r => decide (cannedScore nm r = cannedScore nm b))).head? = some b := by
  haveI ht : IsTotal ChatResponse (fun a b => cannedScore nm b ≤ cannedScore nm a) :=
    ⟨fun a b => le_total _ _⟩
  haveI htr : IsTrans ChatResponse (fun a b => cannedScore nm b ≤ cannedScore nm a) :=
    ⟨fun a b c hab hbc => le_trans hbc hab⟩
  have hperm : List.Perm (cannedSorted nm models) (cannedCandidates nm models) :=
    List.perm_insertionSort _ _
  have hsorted : List.Sorted (fun a b => cannedScore nm b ≤ cannedScore nm a)
      (cannedSorted nm models) := List.sorted_insertionSort _ _
  refine ⟨hperm, hsorted, fun q => filter_insertionSort_stable _ q _, ?_⟩
  intro b hb
  unfold bestCanned at hb
  obtain ⟨rest, hrest⟩ : ∃ rest, cannedSorted nm models = b :: rest := by
    cases hsort : cannedSorted nm models with
    | nil => rw [hsort] at hb; exact absurd hb (by simp)
    | cons y ys =>
      rw [hsort] at hb
      simp only [List.head?_cons, Option.some.injEq] at hb
      exact ⟨ys, by rw [hb]⟩
  refine ⟨?_, ?_, ?_⟩
  · apply hperm.mem_iff.mp
    rw [hrest]
    exact List.mem_cons_self b rest
  · intro x hx
    have hxs : x ∈ cannedSorted nm models := hperm.mem_iff.mpr hx
    rw [hrest] at hxs
    rcases List.mem_cons.mp hxs with heq | hx2
    · rw [heq]
    · rw [hrest] at hsorted
      exact List.rel_of_sorted_cons hsorted x hx2
  · have hstab := filter_insertionSort_stable (cannedScore nm) (cannedScore nm b)
      (cannedCandidates nm models)
    rw [← hstab]
    rw [show List.insertionSort (fun a b => cannedScore nm b ≤ cannedScore nm a)
        (cannedCandidates nm models) = cannedSorted nm models from rfl, hrest]
    simp [List.filter_cons]

unseal Rat.add Rat.mul Rat.inv in
/-- Witness for `c8_canned_ranking`: on the message `"precio costo"` with
candidates scoring 1, 2, 1, the sorted order is `[respB, respA, respC]` —
descending, with the tie between `respA` and `respC` kept in collection
order — and the selected `respB` is a maximal-score candidate. -/
theorem c8_witness :
    cannedSorted (str "precio costo") [respA, respB, respC] = [respB, respA, respC] ∧
    respB ∈ cannedCandidates (str "precio costo") [respA, respB, respC] ∧
    ∀ x ∈ cannedCandidates (str "precio costo") [respA, respB, respC],
      cannedScore (str "precio costo") x ≤ cannedScore (str "precio costo") respB := by
  have h := (c8_canned_ranking (str "precio costo") [respA, respB, respC]).2.2.2 respB (by rfl)
  exact ⟨by rfl, h.1, h.2.1⟩

end BackHackaton
